import Mathlib

/-! Helpers of the meguca server (`server/util.go`).

A shallow embedding of `server/util.go`: the access-control functions
(`checkAuth`, `lookUpIdent`, `canAccessBoard`, `canAccessThread`) and the
utilities `wrapError.Error`, `throw`, `hashBuffer` and `chooseLang`, together
with the properties its specification states about them.

Conventions of the embedding:

* the package-level variable `config` becomes an explicit argument;
* a Go `map[string]V` is an association list read by first match, so that the
  comma-ok read `v, ok := m[k]` is `lookupKey m k : Option V`;
* the RethinkDB round trip of `canAccessThread` becomes an explicit argument
  describing what the storage answers for each thread ID;
* a Go panic is the `Except.error` outcome of a function returning `Except`.
-/

namespace Meguca

/-! ## Go maps -/

/-- A Go `map[string]V`: a finite table from string keys to values. -/
abbrev GoMap (V : Type) := List (String × V)

/-- The comma-ok read `v, ok := m[k]`: `some v` when `ok`, `none` otherwise. -/
def lookupKey {V : Type} (m : GoMap V) (k : String) : Option V :=
  List.lookup k m

/-- The plain read `m[k]` of a `map[string]bool`: an absent key reads as the
zero value `false`. -/
def indexBool (m : GoMap Bool) (k : String) : Bool :=
  (lookupKey m k).getD false

/-- The `ok` flag alone of `_, ok := m[k]`. -/
def hasKey {V : Type} (m : GoMap V) (k : String) : Bool :=
  (lookupKey m k).isSome

/-! ## Data model -/

/-- Modelled from the spec: the declaration of `Ident` is not part of
`util.go`; the fields are the three the tests construct (`IP`, `Auth`,
`Banned`), matching the spec's `Identity {ip, authClass, banned}`. -/
structure Ident where
  IP : String
  Auth : String
  Banned : Bool
  deriving DecidableEq, Repr

/-- Modelled from the spec: the declaration of `staffClass` is not part of
`util.go`; the tests build it as `staffClass{Rights: map[string]bool{...}}`. -/
structure staffClass where
  Rights : GoMap Bool
  deriving DecidableEq, Repr

/-- Modelled from the spec: the `config.Staff` group, of which `util.go` reads
the mapping class-name → `staffClass`. -/
structure staffConfigs where
  Classes : GoMap staffClass
  deriving DecidableEq, Repr

/-- Modelled from the spec: the `config.Boards` group, of which `util.go` reads
the staff-board name `Staff` and the board table `Boards`. Only the presence of
a key in `Boards` is ever read, never the value stored under it. -/
structure boardConfigs where
  Staff : String
  Boards : GoMap Bool
  deriving DecidableEq, Repr

/-- Modelled from the spec: the `config.Lang` group read by `chooseLang`. -/
structure langConfigs where
  Enabled : List String
  Default : String
  deriving DecidableEq, Repr

/-- Modelled from the spec: the declaration of `serverConfigs` (the type of the
global `config`) is not part of `util.go`; these are the groups the file
reads. -/
structure serverConfigs where
  Staff : staffConfigs
  Boards : boardConfigs
  Lang : langConfigs
  deriving DecidableEq, Repr

/-! ## Privilege resolver and board guard -/

/-- Source `checkAuth`: the class of the identity is looked up with a comma-ok
read; when present, the answer is the plain read `class.Rights[action]`. -/
def checkAuth (config : serverConfigs) (action : String) (ident : Ident) : Bool :=
  match lookupKey config.Staff.Classes ident.Auth with
  | some cls => indexBool cls.Rights action
  | none => false

/-- Source `lookUpIdent`: `Ident{IP: ip}`, every other field at its zero
value. -/
def lookUpIdent (ip : String) : Ident :=
  { IP := ip, Auth := "", Banned := false }

/-- Source `canAccessBoard`. -/
def canAccessBoard (config : serverConfigs) (board : String) (ident : Ident) : Bool :=
  if board == config.Boards.Staff && !checkAuth config "accessStaffBoard" ident then
    false
  else
    let ok := hasKey config.Boards.Boards board
    let ok := if !ok && board == "all" then true else ok
    !ident.Banned && ok

/-! ## Thread guard -/

/-- Modelled from the spec: a stored thread record as far as `canAccessThread`
reads it, the `deleted` field, which a record may lack. -/
structure ThreadDoc where
  deleted : Option Bool
  deriving DecidableEq, Repr

/-- Modelled from the spec: the thread-lookup collaborator behind
`db().Do(getThread(id) ...)`, whose code is not part of `util.go`. For a thread
ID the storage either answers, with the stored record or with `none` when it
holds no record, or signals failure explicitly. -/
abbrev ThreadStore := Nat → Except String (Option ThreadDoc)

/-- Modelled from the spec: the query
`db().Do(getThread(id).Field("deleted").Default(false)).One(&deleted)`, whose
helpers `db`, `Do`, `One` and `getThread` are not part of `util.go`. A
successful lookup yields the `deleted` flag, `false` when the field or the
record is absent; a failed lookup is signalled explicitly. The call site binds
no result, so the explicit signal is a panic (the throw style of the
surrounding helpers), here `Except.error`. -/
def queryDeleted (db : ThreadStore) (id : Nat) : Except String Bool :=
  match db id with
  | .error e => .error e
  | .ok none => .ok false
  | .ok (some doc) => .ok (doc.deleted.getD false)

/-- Source `canAccessThread`. The result is `Except.ok b` when the function
returns `b` and `Except.error e` when the storage query panics with `e`. -/
def canAccessThread (config : serverConfigs) (db : ThreadStore) (id : Nat)
    (board : String) (ident : Ident) : Except String Bool :=
  if !canAccessBoard config board ident then
    .ok false
  else
    match queryDeleted db id with
    | .error e => .error e
    | .ok deleted =>
      if deleted && !checkAuth config "seeModeration" ident then
        .ok false
      else
        .ok true

/-! ## Errors -/

/-- A non-nil value of Go's `error` interface, as far as this package builds
them: the plain error of `errors.New`, or the package's own `wrapError`, whose
`inner` field is again an `error` and may be nil (`none`). -/
inductive GoError where
  | errorString (s : String)
  | wrapError (text : String) (inner : Option GoError)

/-- The `Error()` method. For `errors.New(s)` it is `s`; for `wrapError` it is
the source method `func (e wrapError) Error() string`. -/
def GoError.Error : GoError → String
  | .errorString s => s
  | .wrapError text none => text
  | .wrapError text (some inner) => text ++ (": " ++ inner.Error)

/-- Source `throw`: panics with `err` when `err` is non-nil, returns
otherwise. A value of Go's `error` interface is `none` (nil) or `some e`. -/
def throw (err : Option GoError) : Except GoError Unit :=
  match err with
  | some e => .error e
  | none => .ok ()

/-! ## Language selection -/

/-- A cookie as `net/http` hands it to the program: its name and value. -/
structure Cookie where
  Name : String
  Value : String
  deriving DecidableEq, Repr

/-- The part of `*http.Request` that `chooseLang` reads: the cookies sent with
the request, in the order of the request header. -/
structure Request where
  Cookies : List Cookie
  deriving DecidableEq, Repr

/-- The errors a cookie lookup can hand back: `http.ErrNoCookie`, or any
other error. -/
inductive CookieError where
  | ErrNoCookie
  | other (msg : String)
  deriving DecidableEq, Repr

/-- The method `(*http.Request).Cookie(name)` of `net/http`: the first cookie
of that name, or `http.ErrNoCookie` when there is none. -/
def reqCookie (req : Request) (name : String) : Except CookieError Cookie :=
  match req.Cookies.find? (fun c => c.Name == name) with
  | some c => .ok c
  | none => .error .ErrNoCookie

/-- The loop of `chooseLang` with its fall-through:
`for _, lang := range enabled { if value == lang { return lang } }`, then
`return def`. -/
def chooseLangLoop (value : String) (def_ : String) : List String → String
  | [] => def_
  | lang :: rest => if value == lang then lang else chooseLangLoop value def_ rest

/-- Source `chooseLang`. `Except.error` is the `panic(err)` of the branch for
an error other than `http.ErrNoCookie`. -/
def chooseLang (config : serverConfigs) (req : Request) : Except String String :=
  match reqCookie req "lang" with
  | .error .ErrNoCookie => .ok config.Lang.Default
  | .error (.other msg) => .error msg
  | .ok cookie => .ok (chooseLangLoop cookie.Value config.Lang.Default config.Lang.Enabled)

/-! ## Buffer hashing -/

/-- The per-round left-rotation amounts of MD5 (RFC 1321). -/
def md5Shifts : List Nat :=
  [7, 12, 17, 22, 7, 12, 17, 22, 7, 12, 17, 22, 7, 12, 17, 22,
   5, 9, 14, 20, 5, 9, 14, 20, 5, 9, 14, 20, 5, 9, 14, 20,
   4, 11, 16, 23, 4, 11, 16, 23, 4, 11, 16, 23, 4, 11, 16, 23,
   6, 10, 15, 21, 6, 10, 15, 21, 6, 10, 15, 21, 6, 10, 15, 21]

/-- The 64 additive constants of MD5, `floor (2^32 * |sin (i + 1)|)`. -/
def md5Sines : List Nat :=
  [
    0xd76aa478, 0xe8c7b756, 0x242070db, 0xc1bdceee,
    0xf57c0faf, 0x4787c62a, 0xa8304613, 0xfd469501,
    0x698098d8, 0x8b44f7af, 0xffff5bb1, 0x895cd7be,
    0x6b901122, 0xfd987193, 0xa679438e, 0x49b40821,
    0xf61e2562, 0xc040b340, 0x265e5a51, 0xe9b6c7aa,
    0xd62f105d, 0x02441453, 0xd8a1e681, 0xe7d3fbc8,
    0x21e1cde6, 0xc33707d6, 0xf4d50d87, 0x455a14ed,
    0xa9e3e905, 0xfcefa3f8, 0x676f02d9, 0x8d2a4c8a,
    0xfffa3942, 0x8771f681, 0x6d9d6122, 0xfde5380c,
    0xa4beea44, 0x4bdecfa9, 0xf6bb4b60, 0xbebfbc70,
    0x289b7ec6, 0xeaa127fa, 0xd4ef3085, 0x04881d05,
    0xd9d4d039, 0xe6db99e5, 0x1fa27cf8, 0xc4ac5665,
    0xf4292244, 0x432aff97, 0xab9423a7, 0xfc93a039,
    0x655b59c3, 0x8f0ccc92, 0xffeff47d, 0x85845dd1,
    0x6fa87e4f, 0xfe2ce6e0, 0xa3014314, 0x4e0811a1,
    0xf7537e82, 0xbd3af235, 0x2ad7d2bb, 0xeb86d391
  ]

/-- Rotation of a 32-bit word to the left by `s` bits. -/
def rotl32 (x s : Nat) : Nat :=
  ((x <<< s) ||| (x >>> (32 - s))) % 2 ^ 32

/-- Bitwise complement of a 32-bit word. -/
def not32 (x : Nat) : Nat :=
  x ^^^ 0xffffffff

/-- The `n` low bytes of `x`, least significant first. -/
def leBytes (n x : Nat) : List Nat :=
  (List.range n).map (fun i => (x >>> (8 * i)) % 256)

/-- The word whose little-endian bytes are `bs`. -/
def leWord (bs : List Nat) : Nat :=
  bs.foldr (fun b acc => b % 256 + 256 * acc) 0

/-- MD5 padding: the byte `0x80`, zero bytes up to 56 modulo 64, then the
length of the message in bits as a 64-bit little-endian number. -/
def md5Pad (buf : List Nat) : List Nat :=
  buf ++ [0x80] ++ List.replicate ((55 + 64 - buf.length % 64) % 64) 0 ++
    leBytes 8 ((buf.length * 8) % 2 ^ 64)

/-- The 64-byte blocks of a padded message. -/
def md5Blocks (msg : List Nat) : List (List Nat) :=
  (List.range (msg.length / 64)).map (fun i => (msg.drop (64 * i)).take 64)

/-- The sixteen little-endian words of a block. -/
def md5Words (blk : List Nat) : List Nat :=
  (List.range 16).map (fun j => leWord ((blk.drop (4 * j)).take 4))

/-- One of the 64 operations of the MD5 compression function. -/
def md5Step (m : List Nat) (st : Nat × Nat × Nat × Nat) (i : Nat) : Nat × Nat × Nat × Nat :=
  match st with
  | (a, b, c, d) =>
    let f :=
      if i < 16 then (b &&& c) ||| (not32 b &&& d)
      else if i < 32 then (d &&& b) ||| (not32 d &&& c)
      else if i < 48 then b ^^^ c ^^^ d
      else c ^^^ (b ||| not32 d)
    let g :=
      if i < 16 then i
      else if i < 32 then (5 * i + 1) % 16
      else if i < 48 then (3 * i + 5) % 16
      else (7 * i) % 16
    let t := (f + a + md5Sines.getD i 0 + m.getD g 0) % 2 ^ 32
    (d, (b + rotl32 t (md5Shifts.getD i 0)) % 2 ^ 32, b, c)

/-- The MD5 compression function: the state after one block. -/
def md5Block (st : Nat × Nat × Nat × Nat) (blk : List Nat) : Nat × Nat × Nat × Nat :=
  match st, (List.range 64).foldl (md5Step (md5Words blk)) st with
  | (a₀, b₀, c₀, d₀), (a, b, c, d) =>
    ((a₀ + a) % 2 ^ 32, (b₀ + b) % 2 ^ 32, (c₀ + c) % 2 ^ 32, (d₀ + d) % 2 ^ 32)

/-- The 16-byte MD5 digest of a byte buffer, what `md5.New()`, `Write(buf)` and
`Sum(nil)` of `crypto/md5` compute. Bytes are natural numbers below 256. -/
def md5Sum (buf : List Nat) : List Nat :=
  match (md5Blocks (md5Pad buf)).foldl md5Block
      (0x67452301, 0xefcdab89, 0x98badcfe, 0x10325476) with
  | (a, b, c, d) => leBytes 4 a ++ leBytes 4 b ++ leBytes 4 c ++ leBytes 4 d

/-- The lower-case hexadecimal digit of a number below 16. -/
def hexDigit (n : Nat) : Char :=
  ['0', '1', '2', '3', '4', '5', '6', '7', '8', '9', 'a', 'b', 'c', 'd', 'e', 'f'].getD n '0'

/-- The function `hex.EncodeToString` of `encoding/hex`: two lower-case
hexadecimal digits per byte, high digit first. -/
def hexEncodeToString (bytes : List Nat) : String :=
  String.mk (bytes.flatMap (fun b => [hexDigit (b / 16 % 16), hexDigit (b % 16)]))

/-- Go's slice expression `s[n:]` on a string of one-byte characters: the
string without its first `n` characters. -/
def sliceFrom (s : String) (n : Nat) : String :=
  String.mk (s.toList.drop n)

/-- Go's slice expression `s[:n]`, the first `n` characters. -/
def sliceTo (s : String) (n : Nat) : String :=
  String.mk (s.toList.take n)

/-- Source `hashBuffer`: `hex.EncodeToString(hasher.Sum(nil))[16:]`. -/
def hashBuffer (buf : List Nat) : String :=
  sliceFrom (hexEncodeToString (md5Sum buf)) 16

/-! ## Sample values (the fixtures of `util_test.go`) -/

/-- The configuration of `TestCanAccessBoard`: boards `a` and `staff`, staff
board `staff`, class `admin` holding `accessStaffBoard`. -/
def testConfig : serverConfigs :=
  { Staff := { Classes := [("admin", { Rights := [("accessStaffBoard", true)] })] }
    Boards := { Staff := "staff", Boards := [("a", true), ("staff", true)] }
    Lang := { Enabled := ["en_GB"], Default := "lv_LV" } }

/-- The unauthenticated identity `Ident{}`. -/
def anonIdent : Ident := { IP := "", Auth := "", Banned := false }

/-- The identity `Ident{Auth: "admin"}`. -/
def adminIdent : Ident := { IP := "", Auth := "admin", Banned := false }

/-- The identity `Ident{Banned: true}`. -/
def bannedIdent : Ident := { IP := "", Auth := "", Banned := true }

/-- A configuration whose staff board is named `all` and is not in the board
table. -/
def allStaffConfig : serverConfigs :=
  { Staff := { Classes := [] }
    Boards := { Staff := "all", Boards := [("a", true)] }
    Lang := { Enabled := [], Default := "" } }

/-- A configuration whose class mapping has an entry under the empty class
name. -/
def emptyClassConfig : serverConfigs :=
  { Staff := { Classes := [("", { Rights := [("canFoo", true)] })] }
    Boards := { Staff := "staff", Boards := [("a", true)] }
    Lang := { Enabled := [], Default := "" } }

/-- A thread store holding thread 1 (deleted), thread 2 (not deleted), thread 3
(no `deleted` field), failing on thread 9 and holding no other record. -/
def testStore : ThreadStore := fun id =>
  if id = 1 then .ok (some { deleted := some true })
  else if id = 2 then .ok (some { deleted := some false })
  else if id = 3 then .ok (some { deleted := none })
  else if id = 9 then .error "connection lost"
  else .ok none

/-- A healthy thread store holding no record at all. -/
def emptyStore : ThreadStore := fun _ => .ok none

/-- A configuration whose staff-board name was never set (the empty string)
and whose board table holds a board under the empty name. -/
def emptyStaffConfig : serverConfigs :=
  { Staff := { Classes := [("admin", { Rights := [("accessStaffBoard", true)] })] }
    Boards := { Staff := "", Boards := [("", true), ("a", true)] }
    Lang := { Enabled := [], Default := "" } }

/-- A configuration whose staff board is named `all`, is not in the board
table, and whose class `admin` holds `accessStaffBoard`. -/
def allStaffAdminConfig : serverConfigs :=
  { Staff := { Classes := [("admin", { Rights := [("accessStaffBoard", true)] })] }
    Boards := { Staff := "all", Boards := [("a", true)] }
    Lang := { Enabled := [], Default := "" } }

/-- Two identities with the same class and ban flag, asking from different
addresses. -/
def adminAtHome : Ident := { IP := "::1", Auth := "admin", Banned := false }

/-- The second of the two identities. -/
def adminAway : Ident := { IP := "203.0.113.7", Auth := "admin", Banned := false }

/-- The request of `TestChooseLang` carrying the cookie `lang=en_GB`. -/
def enabledLangRequest : Request := { Cookies := [{ Name := "lang", Value := "en_GB" }] }

/-- The request of `TestChooseLang` carrying the cookie `lang=pt_BR`. -/
def otherLangRequest : Request := { Cookies := [{ Name := "lang", Value := "pt_BR" }] }

/-- The request of `TestChooseLang` carrying no cookie. -/
def plainRequest : Request := { Cookies := [] }

/-- The error `errors.New("foo")` of the tests. -/
def fooError : GoError := .errorString "foo"

/-! ## Helper lemmas -/

/-- The body of `canAccessBoard` as one boolean expression. -/
theorem canAccessBoard_unfold (config : serverConfigs) (board : String) (ident : Ident) :
    canAccessBoard config board ident =
      (!(board == config.Boards.Staff && !checkAuth config "accessStaffBoard" ident) &&
        (!ident.Banned && (hasKey config.Boards.Boards board || board == "all"))) := by
  unfold canAccessBoard
  cases h1 : (board == config.Boards.Staff && !checkAuth config "accessStaffBoard" ident) <;>
    cases h2 : hasKey config.Boards.Boards board <;>
    cases h3 : (board == "all") <;> simp

/-- The body of `canAccessThread` once the board gate has been passed. -/
theorem canAccessThread_of_board (config : serverConfigs) (db : ThreadStore) (id : Nat)
    (board : String) (ident : Ident) (h : canAccessBoard config board ident = true) :
    canAccessThread config db id board ident =
      (queryDeleted db id).map (fun deleted => !(deleted && !checkAuth config "seeModeration" ident)) := by
  unfold canAccessThread
  rw [h]
  cases hq : queryDeleted db id with
  | error e => simp [Except.map]
  | ok deleted =>
    cases deleted <;> cases hc : checkAuth config "seeModeration" ident <;> simp [Except.map]

/-- The board gate of `canAccessThread`: the storage is not even queried. -/
theorem canAccessThread_of_not_board (config : serverConfigs) (db : ThreadStore) (id : Nat)
    (board : String) (ident : Ident) (h : canAccessBoard config board ident = false) :
    canAccessThread config db id board ident = .ok false := by
  unfold canAccessThread
  simp [h]

/-- The loop of `chooseLang` returns the cookie value when it is enabled. -/
theorem chooseLangLoop_of_mem (value def_ : String) (enabled : List String)
    (h : value ∈ enabled) : chooseLangLoop value def_ enabled = value := by
  induction enabled with
  | nil => simp at h
  | cons lang rest ih =>
    unfold chooseLangLoop
    by_cases hv : value = lang
    · simp [hv]
    · have hr : value ∈ rest := by
        rcases List.mem_cons.mp h with h | h
        · exact absurd h hv
        · exact h
      simp [hv, ih hr]

/-- The loop of `chooseLang` falls through to the default when the cookie
value is not enabled. -/
theorem chooseLangLoop_of_not_mem (value def_ : String) (enabled : List String)
    (h : value ∉ enabled) : chooseLangLoop value def_ enabled = def_ := by
  induction enabled with
  | nil => rfl
  | cons lang rest ih =>
    unfold chooseLangLoop
    have hv : value ≠ lang := fun e => h (e ▸ List.mem_cons_self _ _)
    have hr : value ∉ rest := fun m => h (List.mem_cons_of_mem _ m)
    simp [hv, ih hr]

/-- A cookie lookup of `net/http` never fails with anything but
`http.ErrNoCookie`. -/
theorem reqCookie_cases (req : Request) (name : String) :
    (∃ c, reqCookie req name = .ok c) ∨ reqCookie req name = .error .ErrNoCookie := by
  unfold reqCookie
  cases req.Cookies.find? (fun c => c.Name == name) with
  | none => exact Or.inr rfl
  | some c => exact Or.inl ⟨c, rfl⟩

/-! ## The assertions of `util_test.go` -/

/-- The six assertions of `TestCanAccessBoard` hold of the embedding. -/
theorem testCanAccessBoard_assertions :
    canAccessBoard testConfig "a" anonIdent = true ∧
    canAccessBoard testConfig "b" anonIdent = false ∧
    canAccessBoard testConfig "all" anonIdent = true ∧
    canAccessBoard testConfig "staff" anonIdent = false ∧
    canAccessBoard testConfig "staff" adminIdent = true ∧
    canAccessBoard testConfig "a" bannedIdent = false := by
  decide

/-! ## Board guard -/

/-- C1: a banned identity is denied every board, `all` and the staff board
included, whatever the configuration and whatever rights its class holds. -/
theorem canAccessBoard_banned (config : serverConfigs) (board : String) (ident : Ident)
    (hban : ident.Banned = true) : canAccessBoard config board ident = false := by
  rw [canAccessBoard_unfold]
  simp [hban]

/-- Witness of C1: the banned identity of the tests on board `a`. -/
theorem canAccessBoard_banned_witness :
    bannedIdent.Banned = true ∧ canAccessBoard testConfig "a" bannedIdent = false :=
  ⟨rfl, canAccessBoard_banned testConfig "a" bannedIdent rfl⟩

/-- C2: when the staff board `S` is present in the board table, a non-banned
identity may access `S` exactly when it holds the `accessStaffBoard` right. -/
theorem canAccessBoard_staff (config : serverConfigs) (ident : Ident)
    (hS : hasKey config.Boards.Boards config.Boards.Staff = true)
    (hban : ident.Banned = false) :
    canAccessBoard config config.Boards.Staff ident =
      checkAuth config "accessStaffBoard" ident := by
  rw [canAccessBoard_unfold]
  simp [hS, hban]

/-- Witness of C2: the admin of the tests on the staff board of the tests. -/
theorem canAccessBoard_staff_witness :
    hasKey testConfig.Boards.Boards testConfig.Boards.Staff = true ∧
    adminIdent.Banned = false ∧
    canAccessBoard testConfig testConfig.Boards.Staff adminIdent =
      checkAuth testConfig "accessStaffBoard" adminIdent :=
  ⟨by decide, rfl, canAccessBoard_staff testConfig adminIdent (by decide) rfl⟩

/-- C3, as stated, fails: when the staff board is itself named `all`, a
non-banned identity without the `accessStaffBoard` right is denied `all`. -/
theorem canAccessBoard_all_denied :
    anonIdent.Banned = false ∧ canAccessBoard allStaffConfig "all" anonIdent = false := by
  decide

/-- C3, amended: a non-banned identity may access `all` exactly when `all` is
not the staff-board name or the identity holds the `accessStaffBoard` right;
the board table plays no part. -/
theorem canAccessBoard_all (config : serverConfigs) (ident : Ident)
    (hban : ident.Banned = false) :
    canAccessBoard config "all" ident = true ↔
      (config.Boards.Staff ≠ "all" ∨ checkAuth config "accessStaffBoard" ident = true) := by
  rw [canAccessBoard_unfold]
  simp only [hban, beq_self_eq_true, Bool.or_true, Bool.not_false, Bool.and_true,
    Bool.not_eq_true', Bool.and_eq_false_imp, beq_iff_eq, Bool.not_eq_false', ne_eq]
  constructor
  · intro h
    by_cases hs : config.Boards.Staff = "all"
    · exact Or.inr (h hs.symm)
    · exact Or.inl hs
  · rintro (h | h) hs
    · exact absurd hs.symm h
    · exact h

/-- Witness of C3 amended: the unauthenticated identity of the tests. -/
theorem canAccessBoard_all_witness :
    anonIdent.Banned = false ∧
    (canAccessBoard testConfig "all" anonIdent = true ↔
      (testConfig.Boards.Staff ≠ "all" ∨
        checkAuth testConfig "accessStaffBoard" anonIdent = true)) :=
  ⟨rfl, canAccessBoard_all testConfig anonIdent rfl⟩

/-- C4: on a board other than the staff board, access is granted exactly when
the identity is not banned and the board is in the board table or is `all`; so
a non-banned identity is denied every absent board other than `all`. -/
theorem canAccessBoard_non_staff (config : serverConfigs) (board : String) (ident : Ident)
    (hne : board ≠ config.Boards.Staff) :
    (canAccessBoard config board ident = true ↔
      (ident.Banned = false ∧ (hasKey config.Boards.Boards board = true ∨ board = "all"))) ∧
    (ident.Banned = false → hasKey config.Boards.Boards board = false → board ≠ "all" →
      canAccessBoard config board ident = false) := by
  rw [canAccessBoard_unfold]
  have hb : (board == config.Boards.Staff) = false := by simpa using hne
  constructor
  · simp [hb]
  · intro h1 h2 h3
    simp [hb, h1, h2, h3]

/-- Witness of C4: board `b` of the tests, absent from the board table. -/
theorem canAccessBoard_non_staff_witness :
    "b" ≠ testConfig.Boards.Staff ∧
    ((canAccessBoard testConfig "b" anonIdent = true ↔
      (anonIdent.Banned = false ∧
        (hasKey testConfig.Boards.Boards "b" = true ∨ "b" = "all"))) ∧
    (anonIdent.Banned = false → hasKey testConfig.Boards.Boards "b" = false → "b" ≠ "all" →
      canAccessBoard testConfig "b" anonIdent = false)) :=
  ⟨by decide, canAccessBoard_non_staff testConfig "b" anonIdent (by decide)⟩

/-! ## Privilege resolver -/

/-- C5: `checkAuth` answers `true` exactly when the identity's class is a key
of the class mapping and that class's rights store `true` for the action; a
missing class and a missing action key both give `false`. The function is
total: every input yields a boolean, never a panic or an error. -/
theorem checkAuth_iff (config : serverConfigs) (action : String) (ident : Ident) :
    (checkAuth config action ident = true ↔
      ∃ cls, lookupKey config.Staff.Classes ident.Auth = some cls ∧
        lookupKey cls.Rights action = some true) ∧
    (lookupKey config.Staff.Classes ident.Auth = none →
      checkAuth config action ident = false) ∧
    (∀ cls, lookupKey config.Staff.Classes ident.Auth = some cls →
      lookupKey cls.Rights action = none → checkAuth config action ident = false) := by
  unfold checkAuth indexBool
  refine ⟨?_, ?_, ?_⟩
  · cases hc : lookupKey config.Staff.Classes ident.Auth with
    | none => simp
    | some cls =>
      cases hr : lookupKey cls.Rights action with
      | none => simp [hr]
      | some b => simp [hr]
  · intro hc
    simp [hc]
  · intro cls hc hr
    simp [hc, hr]

/-- C6, as stated, fails: the class mapping may hold an entry under the empty
class name, and an identity with the empty auth class then gets its rights. -/
theorem checkAuth_empty_class_granted :
    anonIdent.Auth = "" ∧ checkAuth emptyClassConfig "canFoo" anonIdent = true := by
  decide

/-- C6, amended: an identity with the empty auth class has no right to an
action unless the class mapping holds an entry under the empty class name whose
rights store `true` for that action; in particular it has no right at all when
the class mapping has no entry under the empty name. -/
theorem checkAuth_empty_class (config : serverConfigs) (action : String) (ident : Ident)
    (hauth : ident.Auth = "") :
    (checkAuth config action ident = false ↔
      ∀ cls, lookupKey config.Staff.Classes "" = some cls →
        lookupKey cls.Rights action ≠ some true) ∧
    (lookupKey config.Staff.Classes "" = none → checkAuth config action ident = false) := by
  unfold checkAuth indexBool
  rw [hauth]
  constructor
  · cases hc : lookupKey config.Staff.Classes "" with
    | none => simp
    | some cls =>
      cases hr : lookupKey cls.Rights action with
      | none => simp [hr]
      | some b => simp [hr]
  · intro hc
    simp [hc]

/-- Witness of C6 amended: the unauthenticated identity under the
configuration of the tests, which has no class under the empty name. -/
theorem checkAuth_empty_class_witness :
    anonIdent.Auth = "" ∧ lookupKey testConfig.Staff.Classes "" = none ∧
    checkAuth testConfig "accessStaffBoard" anonIdent = false :=
  ⟨rfl, by decide,
    (checkAuth_empty_class testConfig "accessStaffBoard" anonIdent rfl).2 (by decide)⟩

/-! ## Thread guard -/

/-- C7: the board gate dominates. When `canAccessBoard` denies, so does
`canAccessThread`, whatever the thread store holds or answers for the thread
and whatever rights the identity has. -/
theorem canAccessThread_board_gate (config : serverConfigs) (db : ThreadStore) (id : Nat)
    (board : String) (ident : Ident) (hb : canAccessBoard config board ident = false) :
    canAccessThread config db id board ident = .ok false :=
  canAccessThread_of_not_board config db id board ident hb

/-- Witness of C7: a thread that is not deleted, on a board that does not
exist. -/
theorem canAccessThread_board_gate_witness :
    canAccessBoard testConfig "b" adminIdent = false ∧
    canAccessThread testConfig testStore 2 "b" adminIdent = .ok false :=
  ⟨by decide, canAccessThread_board_gate testConfig testStore 2 "b" adminIdent (by decide)⟩

/-- C8: with board access granted and the thread stored as deleted,
`canAccessThread` returns the identity's `seeModeration` right; it is `true` if
and only if the identity holds that right. -/
theorem canAccessThread_deleted (config : serverConfigs) (db : ThreadStore) (id : Nat)
    (board : String) (ident : Ident) (hb : canAccessBoard config board ident = true)
    (hdel : db id = .ok (some { deleted := some true })) :
    canAccessThread config db id board ident = .ok (checkAuth config "seeModeration" ident) ∧
    (canAccessThread config db id board ident = .ok true ↔
      checkAuth config "seeModeration" ident = true) := by
  have hq : queryDeleted db id = .ok true := by
    unfold queryDeleted
    rw [hdel]
    rfl
  rw [canAccessThread_of_board config db id board ident hb, hq]
  simp [Except.map]

/-- Witness of C8: the deleted thread 1 on board `a`, asked for by the admin of
the tests, whose class lacks `seeModeration`. -/
theorem canAccessThread_deleted_witness :
    canAccessBoard testConfig "a" adminIdent = true ∧
    testStore 1 = .ok (some { deleted := some true }) ∧
    canAccessThread testConfig testStore 1 "a" adminIdent = .ok false :=
  ⟨by decide, rfl,
    (canAccessThread_deleted testConfig testStore 1 "a" adminIdent (by decide) rfl).1⟩

/-- C9: when the thread store reports `deleted = false`, or the record has no
`deleted` field, or there is no record, `canAccessThread` returns what
`canAccessBoard` returns, no `seeModeration` right being asked for. Over every
successful lookup the result is
`canAccessBoard AND (not deleted OR seeModeration)`. -/
theorem canAccessThread_not_deleted (config : serverConfigs) (db : ThreadStore) (id : Nat)
    (board : String) (ident : Ident) :
    ((db id = .ok (some { deleted := some false }) ∨ db id = .ok (some { deleted := none }) ∨
        db id = .ok none) →
      canAccessThread config db id board ident = .ok (canAccessBoard config board ident)) ∧
    (∀ deleted, queryDeleted db id = .ok deleted →
      canAccessThread config db id board ident =
        .ok (canAccessBoard config board ident &&
          (!deleted || checkAuth config "seeModeration" ident))) := by
  have key : ∀ deleted, queryDeleted db id = .ok deleted →
      canAccessThread config db id board ident =
        .ok (canAccessBoard config board ident &&
          (!deleted || checkAuth config "seeModeration" ident)) := by
    intro deleted hq
    cases hb : canAccessBoard config board ident with
    | false => simpa using canAccessThread_of_not_board config db id board ident hb
    | true =>
      rw [canAccessThread_of_board config db id board ident hb, hq]
      cases deleted <;> simp [Except.map]
  refine ⟨?_, key⟩
  intro h
  have hq : queryDeleted db id = .ok false := by
    unfold queryDeleted
    rcases h with h | h | h <;> rw [h] <;> rfl
  simpa using key false hq

/-- Witness of C9: thread 3 has no `deleted` field, thread 4 has no record; in
both cases the anonymous identity is let through on board `a`. -/
theorem canAccessThread_not_deleted_witness :
    testStore 3 = .ok (some { deleted := none }) ∧
    canAccessThread testConfig testStore 3 "a" anonIdent = .ok true ∧
    testStore 4 = .ok none ∧
    canAccessThread testConfig testStore 4 "a" anonIdent = .ok true :=
  ⟨rfl,
    (canAccessThread_not_deleted testConfig testStore 3 "a" anonIdent).1 (Or.inr (Or.inl rfl)),
    rfl,
    (canAccessThread_not_deleted testConfig testStore 4 "a" anonIdent).1 (Or.inr (Or.inr rfl))⟩

/-- C10: a failed thread lookup is not taken for "thread not deleted". With
board access granted, a lookup that signals failure makes `canAccessThread`
end in that failure, which differs from the `true` it returns after a
successful lookup reporting `deleted = false`. -/
theorem canAccessThread_lookup_failure (config : serverConfigs) (db db' : ThreadStore)
    (id : Nat) (board : String) (ident : Ident) (e : String)
    (hb : canAccessBoard config board ident = true)
    (hfail : db id = .error e)
    (hok : queryDeleted db' id = .ok false) :
    canAccessThread config db id board ident = .error e ∧
    canAccessThread config db' id board ident = .ok true ∧
    canAccessThread config db id board ident ≠ canAccessThread config db' id board ident := by
  have hq : queryDeleted db id = .error e := by
    unfold queryDeleted
    rw [hfail]
  have h1 : canAccessThread config db id board ident = .error e := by
    rw [canAccessThread_of_board config db id board ident hb, hq]
    rfl
  have h2 : canAccessThread config db' id board ident = .ok true := by
    rw [canAccessThread_of_board config db' id board ident hb, hok]
    rfl
  refine ⟨h1, h2, ?_⟩
  rw [h1, h2]
  intro h
  cases h

/-- Witness of C10: thread 9, on which the sample store fails, against a
healthy store holding no record of it. -/
theorem canAccessThread_lookup_failure_witness :
    canAccessBoard testConfig "a" anonIdent = true ∧
    testStore 9 = .error "connection lost" ∧
    queryDeleted emptyStore 9 = .ok false ∧
    canAccessThread testConfig testStore 9 "a" anonIdent = .error "connection lost" ∧
    canAccessThread testConfig emptyStore 9 "a" anonIdent = .ok true :=
  ⟨by decide, rfl, rfl,
    (canAccessThread_lookup_failure testConfig testStore emptyStore 9 "a" anonIdent
      "connection lost" (by decide) rfl rfl).1,
    (canAccessThread_lookup_failure testConfig testStore emptyStore 9 "a" anonIdent
      "connection lost" (by decide) rfl rfl).2.1⟩

/-- C11, the code at the failing input: thread 4 has no record in the store,
yet `canAccessThread` lets the anonymous identity through on board `a`. The
doc comment of `canAccessThread` says it confirms that the thread exists. -/
theorem canAccessThread_missing_thread_allowed :
    emptyStore 4 = .ok none ∧
    canAccessBoard testConfig "a" anonIdent = true ∧
    canAccessThread testConfig emptyStore 4 "a" anonIdent = .ok true := by
  refine ⟨rfl, by decide, ?_⟩
  rw [canAccessThread_of_board testConfig emptyStore 4 "a" anonIdent (by decide)]
  rfl

/-! ## Board guard, continued -/

/-- C12, as stated, fails: with the staff-board name left empty and a board
stored under the empty name, the anonymous identity is denied that board,
although it is not banned and the board is in the board table. -/
theorem canAccessBoard_empty_staff_denied :
    emptyStaffConfig.Boards.Staff = "" ∧
    canAccessBoard emptyStaffConfig "" anonIdent = false ∧
    (!anonIdent.Banned && hasKey emptyStaffConfig.Boards.Boards "") = true := by
  decide

/-- C12, amended: with the staff-board name left empty, the board with the
empty name is the staff board like any other name would be: access to it is
granted exactly when the identity holds `accessStaffBoard`, is not banned and
the empty name is in the board table. -/
theorem canAccessBoard_empty_staff (config : serverConfigs) (ident : Ident)
    (hS : config.Boards.Staff = "") :
    canAccessBoard config "" ident =
      (checkAuth config "accessStaffBoard" ident &&
        (!ident.Banned && hasKey config.Boards.Boards "")) := by
  rw [canAccessBoard_unfold, hS]
  have h : (("" : String) == "all") = false := by decide
  simp [h]

/-- Witness of C12 amended: the admin of the tests is let into the board with
the empty name. -/
theorem canAccessBoard_empty_staff_witness :
    emptyStaffConfig.Boards.Staff = "" ∧
    canAccessBoard emptyStaffConfig "" adminIdent = true :=
  ⟨rfl, (canAccessBoard_empty_staff emptyStaffConfig adminIdent rfl).trans (by decide)⟩

/-- C18, as stated, fails in its last part: a staff board named `all` that is
absent from the board table is opened to an identity holding
`accessStaffBoard`. -/
theorem canAccessBoard_absent_staff_granted :
    allStaffAdminConfig.Boards.Staff = "all" ∧
    hasKey allStaffAdminConfig.Boards.Boards "all" = false ∧
    checkAuth allStaffAdminConfig "accessStaffBoard" adminIdent = true ∧
    canAccessBoard allStaffAdminConfig "all" adminIdent = true := by
  decide

/-- C18, amended: access is only granted to an existing board. When
`canAccessBoard` answers `true`, the board is in the board table or is `all`;
and a staff board that is neither in the board table nor named `all` is denied
even to an identity holding `accessStaffBoard`. -/
theorem canAccessBoard_exists (config : serverConfigs) (board : String) (ident : Ident) :
    (canAccessBoard config board ident = true →
      hasKey config.Boards.Boards board = true ∨ board = "all") ∧
    (hasKey config.Boards.Boards config.Boards.Staff = false →
      config.Boards.Staff ≠ "all" →
      canAccessBoard config config.Boards.Staff ident = false) := by
  constructor
  · rw [canAccessBoard_unfold]
    intro h
    simp only [Bool.and_eq_true, Bool.or_eq_true, beq_iff_eq] at h
    exact h.2.2
  · intro h1 h2
    rw [canAccessBoard_unfold]
    simp [h1, h2]

/-- Witness of C18 amended: the admin of the tests on the staff board, which is
in the board table. -/
theorem canAccessBoard_exists_witness :
    canAccessBoard testConfig "staff" adminIdent = true ∧
    (hasKey testConfig.Boards.Boards "staff" = true ∨ "staff" = "all") :=
  ⟨by decide, (canAccessBoard_exists testConfig "staff" adminIdent).1 (by decide)⟩

/-! ## Identity -/

/-- C13: `lookUpIdent ip` is the identity with `IP = ip`, the empty auth class
and no ban, for every string `ip`. -/
theorem lookUpIdent_eq (ip : String) :
    lookUpIdent ip = { IP := ip, Auth := "", Banned := false } ∧
    (lookUpIdent ip).IP = ip ∧ (lookUpIdent ip).Auth = "" ∧
    (lookUpIdent ip).Banned = false :=
  ⟨rfl, rfl, rfl, rfl⟩

/-- C19: the three decisions do not read the `IP` field. Two identities with
the same auth class and the same ban flag get the same answers from
`checkAuth`, `canAccessBoard` and `canAccessThread`. -/
theorem decisions_ignore_IP (config : serverConfigs) (db : ThreadStore) (action : String)
    (board : String) (id : Nat) (i₁ i₂ : Ident)
    (hauth : i₁.Auth = i₂.Auth) (hban : i₁.Banned = i₂.Banned) :
    checkAuth config action i₁ = checkAuth config action i₂ ∧
    canAccessBoard config board i₁ = canAccessBoard config board i₂ ∧
    canAccessThread config db id board i₁ = canAccessThread config db id board i₂ := by
  have hc : ∀ a, checkAuth config a i₁ = checkAuth config a i₂ := by
    intro a
    unfold checkAuth
    rw [hauth]
  have hb : canAccessBoard config board i₁ = canAccessBoard config board i₂ := by
    rw [canAccessBoard_unfold, canAccessBoard_unfold, hc, hban]
  refine ⟨hc action, hb, ?_⟩
  unfold canAccessThread
  rw [hb, hc]

/-- Witness of C19: the same admin asking from two addresses for the deleted
thread 1 on the staff board. -/
theorem decisions_ignore_IP_witness :
    adminAtHome.IP ≠ adminAway.IP ∧
    checkAuth testConfig "accessStaffBoard" adminAtHome =
      checkAuth testConfig "accessStaffBoard" adminAway ∧
    canAccessBoard testConfig "staff" adminAtHome =
      canAccessBoard testConfig "staff" adminAway ∧
    canAccessThread testConfig testStore 1 "staff" adminAtHome =
      canAccessThread testConfig testStore 1 "staff" adminAway :=
  ⟨by decide,
    decisions_ignore_IP testConfig testStore "accessStaffBoard" "staff" 1
      adminAtHome adminAway rfl rfl⟩

/-! ## Language selection -/

/-- C14: `chooseLang` returns the value of the request's `lang` cookie when
that value is enabled, and the default language when there is no `lang` cookie
or its value is not enabled; it always returns, and what it returns is the
default or an enabled language. -/
theorem chooseLang_spec (config : serverConfigs) (req : Request) :
    (∀ c, reqCookie req "lang" = .ok c → c.Value ∈ config.Lang.Enabled →
      chooseLang config req = .ok c.Value) ∧
    (reqCookie req "lang" = .error .ErrNoCookie →
      chooseLang config req = .ok config.Lang.Default) ∧
    (∀ c, reqCookie req "lang" = .ok c → c.Value ∉ config.Lang.Enabled →
      chooseLang config req = .ok config.Lang.Default) ∧
    (∃ r, chooseLang config req = .ok r ∧
      (r = config.Lang.Default ∨ r ∈ config.Lang.Enabled)) := by
  have h1 : ∀ c, reqCookie req "lang" = .ok c → c.Value ∈ config.Lang.Enabled →
      chooseLang config req = .ok c.Value := by
    intro c hc hm
    unfold chooseLang
    rw [hc]
    simp only
    rw [chooseLangLoop_of_mem _ _ _ hm]
  have h2 : reqCookie req "lang" = .error .ErrNoCookie →
      chooseLang config req = .ok config.Lang.Default := by
    intro hc
    unfold chooseLang
    rw [hc]
  have h3 : ∀ c, reqCookie req "lang" = .ok c → c.Value ∉ config.Lang.Enabled →
      chooseLang config req = .ok config.Lang.Default := by
    intro c hc hm
    unfold chooseLang
    rw [hc]
    simp only
    rw [chooseLangLoop_of_not_mem _ _ _ hm]
  refine ⟨h1, h2, h3, ?_⟩
  rcases reqCookie_cases req "lang" with ⟨c, hc⟩ | hc
  · by_cases hm : c.Value ∈ config.Lang.Enabled
    · exact ⟨c.Value, h1 c hc hm, Or.inr hm⟩
    · exact ⟨config.Lang.Default, h3 c hc hm, Or.inl rfl⟩
  · exact ⟨config.Lang.Default, h2 hc, Or.inl rfl⟩

/-- Witness of C14: the three requests of `TestChooseLang`. -/
theorem chooseLang_spec_witness :
    chooseLang testConfig enabledLangRequest = .ok "en_GB" ∧
    chooseLang testConfig otherLangRequest = .ok "lv_LV" ∧
    chooseLang testConfig plainRequest = .ok "lv_LV" :=
  ⟨(chooseLang_spec testConfig enabledLangRequest).1 { Name := "lang", Value := "en_GB" }
      rfl (by decide),
    (chooseLang_spec testConfig otherLangRequest).2.2.1 { Name := "lang", Value := "pt_BR" }
      rfl (by decide),
    (chooseLang_spec testConfig plainRequest).2.1 rfl⟩

/-! ## Errors -/

/-- C15: the message of `wrapError{text, inner}` is `text`, followed by `": "`
and the message of `inner` when `inner` is non-nil, and `text` alone when
`inner` is nil. -/
theorem wrapError_Error (text : String) :
    (∀ inner : GoError,
      (GoError.wrapError text (some inner)).Error = text ++ ": " ++ inner.Error) ∧
    (GoError.wrapError text none).Error = text := by
  constructor
  · intro inner
    simp [GoError.Error, String.append_assoc]
  · simp [GoError.Error]

/-- Witness of C15: the assertion of `TestWrapError`. -/
theorem wrapError_Error_witness :
    (GoError.wrapError "bar" (some fooError)).Error = "bar: foo" :=
  ((wrapError_Error "bar").1 fooError).trans (by decide)

/-- C16: `throw err` panics if and only if `err` is non-nil, the panic value
is then `err` itself, and `throw nil` returns normally. -/
theorem throw_spec (err : Option GoError) :
    ((∃ e, throw err = .error e) ↔ err ≠ none) ∧
    (∀ e, throw err = .error e ↔ err = some e) ∧
    (throw err = .ok () ↔ err = none) ∧
    throw none = .ok () := by
  cases err with
  | none => simp [throw]
  | some e => simp [throw]

/-- Witness of C16: the two tests `TestThrowNoError` and `TestThrowWithError`. -/
theorem throw_spec_witness :
    throw none = .ok () ∧ throw (some fooError) = .error fooError :=
  ⟨(throw_spec none).2.2.2, ((throw_spec (some fooError)).2.1 fooError).2 rfl⟩

/-! ## Buffer hashing -/

/-- C17, the code at the failing input: for the buffer `[1, 2, 3]` of
`TestHashBuffer` the hexadecimal MD5 digest is
`5289df737df57326fcdd22597afb1fac`; `hashBuffer` returns its last 16
characters, `fcdd22597afb1fac`, and not the first 16, `5289df737df57326`, which
the test expects. -/
theorem hashBuffer_test_input :
    hexEncodeToString (md5Sum [1, 2, 3]) = "5289df737df57326fcdd22597afb1fac" ∧
    hashBuffer [1, 2, 3] = "fcdd22597afb1fac" ∧
    sliceTo (hexEncodeToString (md5Sum [1, 2, 3])) 16 = "5289df737df57326" ∧
    hashBuffer [1, 2, 3] ≠ "5289df737df57326" := by
  decide

end Meguca
